import Mathlib

/-!
# Verification of the CarInfo p2p peer (`src/rust-car-p2p/src/main.rs`)

A shallow embedding of the peer's pure protocol logic:

* the wire data model (`Carinfo`, `ListMode`, `ListRequest`, `ListResponse`)
  together with a JSON value model of serde's derived
  serialization/deserialization;
* the local record-store operations `create_new_Carinfo` and
  `publish_Carinfo` (modelled on the collection read from / written to the
  store file);
* the floodsub inbound-message handler (`inject_event` for
  `FloodsubEvent::Message`), the mdns membership handler (`inject_event`
  for `MdnsEvent`), the response-computation task
  `respond_with_public_Carinfo`, and the `ls r` command handler
  `handle_list_Carinfo`.

Effectful Rust code is embedded as explicit functions from inputs (local
peer address, message source, store-read result, raw payload) to the
visible effects (what is displayed, what is queued on the response relay,
what is written back to the store).
-/

/-- JSON values, the target of serde serialization.  Object fields keep
their order, mirroring the serialized text. -/
inductive Json where
  | null : Json
  | bool (b : Bool) : Json
  | num (n : Nat) : Json
  | str (s : String) : Json
  | arr (items : List Json) : Json
  | obj (fields : List (String × Json)) : Json
deriving Repr

/-- A car record as persisted in `carinfo.json` (struct at
`main.rs:11-18`; the struct is declared `Recipe` but used as `Carinfo`
throughout). -/
structure Carinfo where
  id : Nat
  make : String
  model : String
  horsepower : String
  public : Bool
deriving Repr, DecidableEq

/-- The record collection (`type Carinfos = Vec<Carinfo>`, `main.rs:9`). -/
abbrev Carinfos := List Carinfo

/-- `ListMode` (`main.rs:20-24`): query every peer (`ALL`) or one peer
identified by its textual peer id (`One`). -/
inductive ListMode where
  | ALL : ListMode
  | One (peerId : String) : ListMode
deriving Repr, DecidableEq

/-- `ListRequest` (`main.rs:26-29`). -/
structure ListRequest where
  mode : ListMode
deriving Repr, DecidableEq

/-- `ListResponse` (`main.rs:31-36`). -/
structure ListResponse where
  mode : ListMode
  data : Carinfos
  receiver : String
deriving Repr, DecidableEq

/-! ## serde serialization to JSON values -/

/-- serde's externally tagged encoding of `ListMode`: the unit variant
`ALL` encodes as the string `"ALL"`, `One(s)` as `{"One": s}`. -/
def encodeListMode : ListMode → Json
  | .ALL => .str "ALL"
  | .One s => .obj [("One", .str s)]

/-- serde's encoding of a `Carinfo` struct: an object with the fields in
declaration order. -/
def encodeCarinfo (c : Carinfo) : Json :=
  .obj [("id", .num c.id), ("make", .str c.make), ("model", .str c.model),
        ("horsepower", .str c.horsepower), ("public", .bool c.public)]

/-- serde's encoding of a `ListRequest`. -/
def encodeListRequest (r : ListRequest) : Json :=
  .obj [("mode", encodeListMode r.mode)]

/-- serde's encoding of a `ListResponse`. -/
def encodeListResponse (r : ListResponse) : Json :=
  .obj [("mode", encodeListMode r.mode),
        ("data", .arr (r.data.map encodeCarinfo)),
        ("receiver", .str r.receiver)]

/-! ## serde deserialization from JSON values

serde's derived `Deserialize` looks struct fields up by name (order
insensitive) and fails when a required field is missing or has the wrong
shape. -/

/-- Look a field up by name (first occurrence wins). -/
def lookupField : List (String × Json) → String → Option Json
  | [], _ => none
  | (k, v) :: rest, key => if k = key then some v else lookupField rest key

/-- Expect a JSON string. -/
def asStr : Json → Option String
  | .str s => some s
  | _ => none

/-- Expect a JSON number. -/
def asNat : Json → Option Nat
  | .num n => some n
  | _ => none

/-- Expect a JSON bool. -/
def asBool : Json → Option Bool
  | .bool b => some b
  | _ => none

/-- Decode a `ListMode`: either the bare string `"ALL"` or a
single-field object `{"One": <string>}`. -/
def decodeListMode : Json → Option ListMode
  | .str s => if s = "ALL" then some .ALL else none
  | .obj [(k, v)] => if k = "One" then (asStr v).map ListMode.One else none
  | _ => none

/-- Decode a `Carinfo` from an object by field lookup. -/
def decodeCarinfo : Json → Option Carinfo
  | .obj fields =>
    ((lookupField fields "id").bind asNat).bind fun id =>
      ((lookupField fields "make").bind asStr).bind fun make =>
        ((lookupField fields "model").bind asStr).bind fun model =>
          ((lookupField fields "horsepower").bind asStr).bind fun horsepower =>
            ((lookupField fields "public").bind asBool).map fun pub =>
              { id := id, make := make, model := model,
                horsepower := horsepower, public := pub }
  | _ => none

/-- Decode a JSON array elementwise; any bad element fails the whole
decode. -/
def decodeCarinfoList : List Json → Option Carinfos
  | [] => some []
  | j :: rest =>
    (decodeCarinfo j).bind fun c =>
      (decodeCarinfoList rest).map fun cs => c :: cs

/-- Decode the `data` field of a response. -/
def decodeCarinfos : Json → Option Carinfos
  | .arr items => decodeCarinfoList items
  | _ => none

/-- Decode a `ListRequest` (`serde_json::from_slice::<ListRequest>`). -/
def decodeListRequest : Json → Option ListRequest
  | .obj fields =>
    ((lookupField fields "mode").bind decodeListMode).map ListRequest.mk
  | _ => none

/-- Decode a `ListResponse` (`serde_json::from_slice::<ListResponse>`). -/
def decodeListResponse : Json → Option ListResponse
  | .obj fields =>
    ((lookupField fields "mode").bind decodeListMode).bind fun mode =>
      ((lookupField fields "data").bind decodeCarinfos).bind fun data =>
        ((lookupField fields "receiver").bind asStr).map fun receiver =>
          { mode := mode, data := data, receiver := receiver }
  | _ => none

/-! ## Local record store operations -/

/-- One step of `iter().max_by_key(|r| r.id)` (`main.rs:157`): keep the
element with the larger id, the later one on ties. -/
def maxByIdStep (acc : Option Carinfo) (r : Carinfo) : Option Carinfo :=
  match acc with
  | none => some r
  | some m => if m.id ≤ r.id then some r else some m

/-- `local_Carinfo.iter().max_by_key(|r| r.id)` (`main.rs:157`). -/
def maxById (s : Carinfos) : Option Carinfo :=
  s.foldl maxByIdStep none

/-- The id given to a freshly created record (`main.rs:157-160`):
max id + 1, or 0 on an empty store. -/
def newCarinfoId (s : Carinfos) : Nat :=
  match maxById s with
  | some v => v.id + 1
  | none => 0

/-- `create_new_Carinfo` (`main.rs:155-176`), as the collection handed to
`write_local_Carinfo` in terms of the collection read from the store:
push one new private record with the fresh id. -/
def create_new_Carinfo (make model horsepower : String) (store : Carinfos) : Carinfos :=
  store ++ [{ id := newCarinfoId store, make := make, model := model,
              horsepower := horsepower, public := false }]

/-- `publish_Carinfo` (`main.rs:178-186`), as the collection handed to
`write_local_Carinfo` in terms of the collection read from the store:
`iter_mut().filter(|r| r.id == id).for_each(|r| r.public = true)`. -/
def publish_Carinfo (id : Nat) (store : Carinfos) : Carinfos :=
  store.map fun r => if r.id = id then { r with public := true } else r

/-! ## Response computation and the floodsub message handler -/

/-- `respond_with_public_Carinfo` (`main.rs:296-312`): the relay entry the
spawned task sends, as a function of the outcome of
`read_local_carinfo()`.  On a read error the task only logs and sends
nothing; on success it queues one `ListResponse` whose mode is `ALL`,
whose receiver is the given address and whose data is the public subset
of the store. -/
def respond_with_public_Carinfo (readResult : Except String Carinfos)
    (receiver : String) : Option ListResponse :=
  match readResult with
  | .ok carinfo =>
    some { mode := .ALL, receiver := receiver,
           data := carinfo.filter fun r => r.public }
  | .error _ => none

/-- The visible effect of `inject_event` on a `FloodsubEvent::Message`
(`main.rs:260-293`): what is displayed locally (a response addressed to
this peer) and for whom a response-computation task is spawned. -/
structure HandleResult where
  display : Option ListResponse
  respondTo : Option String
deriving Repr, DecidableEq

/-- `inject_event` for `FloodsubEvent::Message` (`main.rs:262-291`): try
to decode a `ListResponse` first and display it when `receiver` equals
the local peer id; otherwise try a `ListRequest` and spawn a responder
for `ALL` requests and for `One` requests naming this peer; otherwise do
nothing. -/
def inject_floodsub_message (localPeerId source : String) (msgData : Json) :
    HandleResult :=
  match decodeListResponse msgData with
  | some resp =>
    if resp.receiver = localPeerId then
      { display := some resp, respondTo := none }
    else
      { display := none, respondTo := none }
  | none =>
    match decodeListRequest msgData with
    | some req =>
      match req.mode with
      | .ALL => { display := none, respondTo := some source }
      | .One peerId =>
        if peerId = localPeerId then
          { display := none, respondTo := some source }
        else
          { display := none, respondTo := none }
    | none => { display := none, respondTo := none }

/-- The relay entries a single inbound floodsub message leaves on the
response channel, given the outcome the spawned task's store read would
have: the spawned task (if any) contributes its queued response (if
any). -/
def relayEntries (localPeerId source : String)
    (readResult : Except String Carinfos) (msgData : Json) : List ListResponse :=
  match (inject_floodsub_message localPeerId source msgData).respondTo with
  | some receiver => (respond_with_public_Carinfo readResult receiver).toList
  | none => []

/-! ## mdns membership handler -/

/-- `inject_event` for `MdnsEvent::Discovered` (`main.rs:241-245`): add
every discovered peer to the floodsub partial view. -/
def inject_mdns_discovered (view : Finset String) (peers : List String) :
    Finset String :=
  peers.foldl (fun v p => insert p v) view

/-- `inject_event` for `MdnsEvent::Expired` (`main.rs:246-252`): remove an
expired peer from the floodsub partial view only when mdns itself no
longer lists it (`!self.mdns.has_node(&peer)`), `live` being mdns's own
book-keeping. -/
def inject_mdns_expired (view : Finset String) (live : Finset String)
    (peers : List String) : Finset String :=
  peers.foldl (fun v p => if p ∈ live then v else v.erase p) view

/-! ## The `ls r` command handler -/

/-- What `handle_list_Carinfo` does with a command line: publish a
serialized `ListRequest`, or fall through to showing the local records. -/
inductive ListAction where
  | publishReq (req : ListRequest) : ListAction
  | showLocal : ListAction
deriving Repr, DecidableEq

/-- Rust's `str::strip_prefix`: `some` of the suffix when the string
starts with the prefix, `none` otherwise.  Commands are modelled as
character lists. -/
def stripPrefix : List Char → List Char → Option (List Char)
  | [], s => some s
  | _ :: _, [] => none
  | p :: ps, c :: cs => if p = c then stripPrefix ps cs else none

/-- `handle_list_Carinfo` (`main.rs:200-227`): match on
`cmd.strip_prefix("ls r ")` — `Some("all")` broadcasts an `ALL` request,
`Some(rest)` publishes a `One(rest)` request, `None` lists the local
records. -/
def handle_list_Carinfo (cmd : List Char) : ListAction :=
  match stripPrefix "ls r ".data cmd with
  | some rest =>
    if rest = "all".data then .publishReq ⟨.ALL⟩
    else .publishReq ⟨.One (String.mk rest)⟩
  | none => .showLocal

/-- The command classes of the control loop's input dispatch
(`main.rs:100-106`). -/
inductive Command where
  | listPeers : Command
  | listCar : Command
  | createCar : Command
  | publishCar : Command
  | unknown : Command
deriving Repr, DecidableEq

/-- The control loop's input dispatch (`main.rs:100-106`): exact match on
`"ls p"`, then `starts_with` guards for `"ls r"`, `"create r"` and
`"publish r"`, else an unknown command. -/
def dispatchInput (line : List Char) : Command :=
  if line = "ls p".data then .listPeers
  else if "ls r".data.isPrefixOf line then .listCar
  else if "create r".data.isPrefixOf line then .createCar
  else if "publish r".data.isPrefixOf line then .publishCar
  else .unknown

/-! ## Codec lemmas -/

lemma decodeListMode_encodeListMode (m : ListMode) :
    decodeListMode (encodeListMode m) = some m := by
  cases m <;> rfl

lemma decodeCarinfo_encodeCarinfo (c : Carinfo) :
    decodeCarinfo (encodeCarinfo c) = some c := rfl

lemma decodeCarinfoList_map_encodeCarinfo (l : Carinfos) :
    decodeCarinfoList (l.map encodeCarinfo) = some l := by
  induction l with
  | nil => rfl
  | cons c cs ih =>
    simp [decodeCarinfoList, decodeCarinfo_encodeCarinfo, ih]

lemma decodeListRequest_encodeListRequest (req : ListRequest) :
    decodeListRequest (encodeListRequest req) = some req := by
  obtain ⟨mode⟩ := req
  cases mode <;> rfl

lemma decodeListResponse_encodeListResponse (resp : ListResponse) :
    decodeListResponse (encodeListResponse resp) = some resp := by
  obtain ⟨mode, data, receiver⟩ := resp
  cases mode <;>
    simp [encodeListResponse, decodeListResponse, encodeListMode, decodeListMode,
      lookupField, decodeCarinfos, decodeCarinfoList_map_encodeCarinfo, asStr]

/-- An encoded `ListRequest` never decodes as a `ListResponse` (it has no
`data` and no `receiver` field), so requests always reach the second
decode attempt of the handler. -/
lemma decodeListResponse_encodeListRequest (req : ListRequest) :
    decodeListResponse (encodeListRequest req) = none := by
  obtain ⟨mode⟩ := req
  cases mode <;> rfl

/-! ## maxById lemmas -/

lemma foldl_maxByIdStep_some (s : Carinfos) :
    ∀ m : Carinfo, ∃ v, s.foldl maxByIdStep (some m) = some v
      ∧ (v ∈ s ∨ v = m) ∧ m.id ≤ v.id ∧ ∀ x ∈ s, x.id ≤ v.id := by
  induction s with
  | nil => intro m; exact ⟨m, rfl, Or.inr rfl, le_refl _, by simp⟩
  | cons r rest ih =>
    intro m
    by_cases h : m.id ≤ r.id
    · obtain ⟨v, hv, hmem, hle, hall⟩ := ih r
      refine ⟨v, ?_, ?_, ?_, ?_⟩
      · simpa [maxByIdStep, h] using hv
      · rcases hmem with h1 | h1
        · exact Or.inl (List.mem_cons_of_mem _ h1)
        · exact Or.inl (h1 ▸ List.mem_cons_self _ _)
      · exact le_trans h hle
      · intro x hx
        rcases List.mem_cons.mp hx with rfl | hx
        · exact hle
        · exact hall x hx
    · obtain ⟨v, hv, hmem, hle, hall⟩ := ih m
      refine ⟨v, ?_, ?_, hle, ?_⟩
      · simpa [maxByIdStep, h] using hv
      · rcases hmem with h1 | h1
        · exact Or.inl (List.mem_cons_of_mem _ h1)
        · exact Or.inr h1
      · intro x hx
        rcases List.mem_cons.mp hx with rfl | hx
        · exact le_trans (le_of_not_le h) hle
        · exact hall x hx

lemma maxById_spec (s : Carinfos) (hs : s ≠ []) :
    ∃ v, maxById s = some v ∧ v ∈ s ∧ ∀ x ∈ s, x.id ≤ v.id := by
  match s, hs with
  | r :: rest, _ =>
    obtain ⟨v, hv, hmem, _, hall⟩ := foldl_maxByIdStep_some rest r
    refine ⟨v, ?_, ?_, ?_⟩
    · simpa [maxById, maxByIdStep] using hv
    · rcases hmem with h1 | h1
      · exact List.mem_cons_of_mem _ h1
      · exact h1 ▸ List.mem_cons_self _ _
    · intro x hx
      rcases List.mem_cons.mp hx with rfl | hx
      · rcases hmem with h1 | h1
        · exact (foldl_maxByIdStep_some rest x).elim fun w hw => by
            rw [hv] at hw; cases hw.1; exact hw.2.2.1
        · exact h1 ▸ le_refl _
      · exact hall x hx

/-! ## mdns view lemmas -/

lemma mem_inject_mdns_discovered (view : Finset String) (peers : List String)
    (a : String) :
    a ∈ inject_mdns_discovered view peers ↔ a ∈ peers ∨ a ∈ view := by
  induction peers generalizing view with
  | nil => simp [inject_mdns_discovered]
  | cons p ps ih =>
    simp only [inject_mdns_discovered, List.foldl_cons] at *
    rw [ih (insert p view)]
    simp [Finset.mem_insert, List.mem_cons]
    tauto

lemma mem_inject_mdns_expired_of_live (view live : Finset String)
    (peers : List String) (p : String) (hp : p ∈ live) (hview : p ∈ view) :
    p ∈ inject_mdns_expired view live peers := by
  induction peers generalizing view with
  | nil => simpa [inject_mdns_expired] using hview
  | cons q qs ih =>
    simp only [inject_mdns_expired, List.foldl_cons] at *
    by_cases hq : q ∈ live
    · rw [if_pos hq]; exact ih view hview
    · rw [if_neg hq]
      exact ih _ (Finset.mem_erase.mpr ⟨fun h => hq (h ▸ hp), hview⟩)

/-! ## stripPrefix lemmas -/

lemma stripPrefix_append (p r : List Char) : stripPrefix p (p ++ r) = some r := by
  induction p with
  | nil => rfl
  | cons c cs ih => simp [stripPrefix, ih]

/-! ## Claim theorems -/

/-- C1: an inbound message that decodes as a `ListResponse` is treated as
addressed to this peer iff its `receiver` field equals the local peer id
by exact string equality; with any other receiver the message is ignored
completely — nothing is displayed, no responder is spawned, nothing is
re-published. -/
theorem claim_C1_response_exact_receiver_filter
    (localPeerId source : String) (msgData : Json) (resp : ListResponse)
    (hdec : decodeListResponse msgData = some resp) :
    ((inject_floodsub_message localPeerId source msgData).display = some resp
        ↔ resp.receiver = localPeerId)
      ∧ (inject_floodsub_message localPeerId source msgData).respondTo = none
      ∧ (resp.receiver ≠ localPeerId →
          inject_floodsub_message localPeerId source msgData
            = { display := none, respondTo := none }) := by
  unfold inject_floodsub_message
  rw [hdec]
  by_cases h : resp.receiver = localPeerId <;> simp [h]

/-- Witness for C1 at a concrete response: the matching receiver is
displayed, a mismatching one is dropped. -/
theorem claim_C1_response_exact_receiver_filter_witness :
    (inject_floodsub_message "QmA" "QmS"
        (encodeListResponse ⟨.ALL, [], "QmA"⟩)).display = some ⟨.ALL, [], "QmA"⟩
      ∧ inject_floodsub_message "QmA" "QmS" (encodeListResponse ⟨.ALL, [], "QmB"⟩)
          = { display := none, respondTo := none } :=
  ⟨(claim_C1_response_exact_receiver_filter "QmA" "QmS" _ ⟨.ALL, [], "QmA"⟩
      (decodeListResponse_encodeListResponse _)).1.mpr rfl,
   (claim_C1_response_exact_receiver_filter "QmA" "QmS" _ ⟨.ALL, [], "QmB"⟩
      (decodeListResponse_encodeListResponse _)).2.2 (by decide)⟩

/-- C2 counterexample: at the very peer a `One` request is addressed to,
a failing store read (for instance the first run, before `carinfo.json`
exists) makes the spawned responder log and send nothing
(`main.rs:309`), so the addressed peer produces zero relay entries — the
unconditional "exactly one relay entry" is false. -/
theorem claim_C2_counterexample :
    ¬ ∀ readResult : Except String Carinfos,
        (relayEntries "QmB" "QmS" readResult
          (encodeListRequest ⟨.One "QmB"⟩)).length = 1 := by
  intro h
  exact absurd (h (.error "io error")) (by decide)

/-- C2 amended: a `ListRequest{mode: One(target)}` received by a peer
whose id differs from `target` produces no relay entry and nothing at
all, whatever the store's state; the peer whose id equals `target`
produces exactly one relay entry whose data is exactly the public subset
of its store provided the store read succeeds, and none when the read
fails. -/
theorem claim_C2_directed_request
    (localPeerId source target : String) (store : Carinfos)
    (readResult : Except String Carinfos) (e : String)
    (hne : localPeerId ≠ target) :
    relayEntries localPeerId source readResult (encodeListRequest ⟨.One target⟩) = []
      ∧ inject_floodsub_message localPeerId source (encodeListRequest ⟨.One target⟩)
          = { display := none, respondTo := none }
      ∧ (relayEntries target source (.ok store)
          (encodeListRequest ⟨.One target⟩)).length = 1
      ∧ (∀ resp ∈ relayEntries target source (.ok store)
          (encodeListRequest ⟨.One target⟩),
          (∀ r ∈ resp.data, r ∈ store ∧ r.public = true)
            ∧ ∀ r ∈ store, r.public = true → r ∈ resp.data)
      ∧ relayEntries target source (.error e) (encodeListRequest ⟨.One target⟩)
          = [] := by
  have hmiss :
      inject_floodsub_message localPeerId source (encodeListRequest ⟨.One target⟩)
        = { display := none, respondTo := none } := by
    unfold inject_floodsub_message
    rw [decodeListResponse_encodeListRequest, decodeListRequest_encodeListRequest]
    simp [Ne.symm hne]
  have hhit :
      inject_floodsub_message target source (encodeListRequest ⟨.One target⟩)
        = { display := none, respondTo := some source } := by
    unfold inject_floodsub_message
    rw [decodeListResponse_encodeListRequest, decodeListRequest_encodeListRequest]
    simp
  refine ⟨?_, hmiss, ?_, ?_, ?_⟩
  · unfold relayEntries
    rw [hmiss]
  · unfold relayEntries
    rw [hhit]
    rfl
  · unfold relayEntries
    rw [hhit]
    intro resp hresp
    simp only [respond_with_public_Carinfo, Option.toList_some, List.mem_singleton]
      at hresp
    subst hresp
    constructor
    · intro r hr
      have := List.mem_filter.mp hr
      exact ⟨this.1, by simpa using this.2⟩
    · intro r hr hpub
      exact List.mem_filter.mpr ⟨hr, by simpa using hpub⟩
  · unfold relayEntries
    rw [hhit]
    rfl

/-- Witness for C2 at concrete peers and a concrete one-record store:
the non-addressed peer queues nothing, the addressed peer queues exactly
one entry on a successful read and nothing on a failed read. -/
theorem claim_C2_directed_request_witness :
    relayEntries "QmA" "QmS" (Except.ok ([⟨0, "m", "n", "h", true⟩] : Carinfos))
        (encodeListRequest ⟨.One "QmB"⟩) = []
      ∧ (relayEntries "QmB" "QmS"
          (Except.ok ([⟨0, "m", "n", "h", true⟩] : Carinfos))
          (encodeListRequest ⟨.One "QmB"⟩)).length = 1
      ∧ relayEntries "QmB" "QmS" (Except.error "io error")
          (encodeListRequest ⟨.One "QmB"⟩) = [] :=
  ⟨(claim_C2_directed_request "QmA" "QmS" "QmB" [⟨0, "m", "n", "h", true⟩]
      (.ok [⟨0, "m", "n", "h", true⟩]) "io error" (by decide)).1,
   (claim_C2_directed_request "QmA" "QmS" "QmB" [⟨0, "m", "n", "h", true⟩]
      (.ok [⟨0, "m", "n", "h", true⟩]) "io error" (by decide)).2.2.1,
   (claim_C2_directed_request "QmA" "QmS" "QmB" [⟨0, "m", "n", "h", true⟩]
      (.ok [⟨0, "m", "n", "h", true⟩]) "io error" (by decide)).2.2.2.2⟩

/-- C3 counterexample: when the local store read fails (for instance the
very first run, before `carinfo.json` exists), an `ALL` request produces
no relay entry at all — `respond_with_public_Carinfo` only logs the error
— so "exactly one relay entry regardless of the local store's state" is
false. -/
theorem claim_C3_counterexample :
    ¬ ∀ readResult : Except String Carinfos,
        (relayEntries "QmA" "QmS" readResult
          (encodeListRequest ⟨.ALL⟩)).length = 1 := by
  intro h
  simpa [relayEntries, inject_floodsub_message, decodeListResponse,
    decodeListRequest, lookupField, decodeListMode, encodeListRequest,
    encodeListMode, respond_with_public_Carinfo] using h (.error "io error")

/-- C3 amended: an `ALL` request produces exactly one relay entry at
every receiving peer, regardless of the requester's address and of the
store's contents, provided the local store read succeeds; when the read
fails it produces none. -/
theorem claim_C3_broadcast_request_amended
    (localPeerId source : String) (store : Carinfos) (e : String) :
    (relayEntries localPeerId source (.ok store)
        (encodeListRequest ⟨.ALL⟩)).length = 1
      ∧ relayEntries localPeerId source (.error e) (encodeListRequest ⟨.ALL⟩)
          = [] := by
  have hall :
      inject_floodsub_message localPeerId source (encodeListRequest ⟨.ALL⟩)
        = { display := none, respondTo := some source } := by
    unfold inject_floodsub_message
    rw [decodeListResponse_encodeListRequest, decodeListRequest_encodeListRequest]
  constructor
  · unfold relayEntries
    rw [hall]
    rfl
  · unfold relayEntries
    rw [hall]
    rfl

/-- C4 counterexample: answering the directed request `One("QmX")` at peer
`QmX` itself, the relay entry's mode is `ALL`, not `One("QmX")`:
`respond_with_public_Carinfo` hard-codes `mode: ListMode::ALL`
(`main.rs:301`), so the response's mode does not equal the mode of the
request it answers. -/
theorem claim_C4_counterexample :
    (relayEntries "QmX" "QmS" (Except.ok ([] : Carinfos))
        (encodeListRequest ⟨.One "QmX"⟩)).map ListResponse.mode = [ListMode.ALL]
      ∧ ListMode.ALL ≠ ListMode.One "QmX" := by
  constructor
  · rfl
  · decide

/-- C4 amended: every `ListResponse` constructed in answer to a
`ListRequest` carries `mode = ALL`, whatever the mode of the request it
answers — the response constructor hard-codes `ALL`. -/
theorem claim_C4_response_mode_always_all
    (readResult : Except String Carinfos) (receiver : String)
    (localPeerId source : String) (msgData : Json) (resp : ListResponse)
    (h : respond_with_public_Carinfo readResult receiver = some resp) :
    resp.mode = ListMode.ALL
      ∧ ∀ r ∈ relayEntries localPeerId source readResult msgData,
          r.mode = ListMode.ALL := by
  constructor
  · cases readResult with
    | ok store =>
      simp only [respond_with_public_Carinfo, Option.some.injEq] at h
      rw [← h]
    | error e => simp [respond_with_public_Carinfo] at h
  · intro r hr
    unfold relayEntries at hr
    cases hresp : (inject_floodsub_message localPeerId source msgData).respondTo with
    | none => rw [hresp] at hr; simp at hr
    | some recv =>
      rw [hresp] at hr
      cases readResult with
      | ok store =>
        simp only [respond_with_public_Carinfo, Option.toList_some,
          List.mem_singleton] at hr
        rw [hr]
      | error e => simp [respond_with_public_Carinfo] at hr

/-- Witness for C4 amended at a concrete successful store read. -/
theorem claim_C4_response_mode_always_all_witness :
    (ListResponse.mode ⟨.ALL, [], "QmS"⟩) = ListMode.ALL :=
  (claim_C4_response_mode_always_all (.ok []) "QmS" "QmA" "QmS" Json.null
    ⟨.ALL, [], "QmS"⟩ rfl).1

/-- C7: an inbound payload that decodes as neither a `ListResponse` nor a
`ListRequest` is dropped silently: nothing is displayed, no responder is
spawned, and no relay entry is produced. -/
theorem claim_C7_malformed_dropped
    (localPeerId source : String) (msgData : Json)
    (readResult : Except String Carinfos)
    (h1 : decodeListResponse msgData = none)
    (h2 : decodeListRequest msgData = none) :
    inject_floodsub_message localPeerId source msgData
        = { display := none, respondTo := none }
      ∧ relayEntries localPeerId source readResult msgData = [] := by
  have hmain : inject_floodsub_message localPeerId source msgData
      = { display := none, respondTo := none } := by
    unfold inject_floodsub_message
    rw [h1, h2]
  exact ⟨hmain, by unfold relayEntries; rw [hmain]⟩

/-- Witness for C7 at a concrete malformed payload (`null`). -/
theorem claim_C7_malformed_dropped_witness :
    inject_floodsub_message "QmA" "QmS" Json.null
        = { display := none, respondTo := none }
      ∧ relayEntries "QmA" "QmS" (Except.ok []) Json.null = [] :=
  claim_C7_malformed_dropped "QmA" "QmS" Json.null (Except.ok []) rfl rfl

/-- C9: serializing then deserializing any `ListRequest` and any
`ListResponse` — any mode, any record collection including the empty one
— restores the original value in all fields. -/
theorem claim_C9_serde_roundtrip (req : ListRequest) (resp : ListResponse) :
    decodeListRequest (encodeListRequest req) = some req
      ∧ decodeListResponse (encodeListResponse resp) = some resp :=
  ⟨decodeListRequest_encodeListRequest req,
   decodeListResponse_encodeListResponse resp⟩

/-- C5: a `create` over any current store writes back the full prior
collection plus exactly one appended record; the new record is private,
and its id is one more than the maximum id in the store — 0 when the
store is empty. -/
theorem claim_C5_create_fresh_id
    (make model horsepower : String) (store : Carinfos) :
    (create_new_Carinfo make model horsepower store).length = store.length + 1
      ∧ (create_new_Carinfo make model horsepower store).take store.length = store
      ∧ (create_new_Carinfo make model horsepower store).getLast? =
          some { id := newCarinfoId store, make := make, model := model,
                 horsepower := horsepower, public := false }
      ∧ (store = [] → newCarinfoId store = 0)
      ∧ (∀ x ∈ store, x.id < newCarinfoId store)
      ∧ (store ≠ [] → ∃ x ∈ store, newCarinfoId store = x.id + 1) := by
  refine ⟨by simp [create_new_Carinfo], ?_, ?_, ?_, ?_, ?_⟩
  · simp [create_new_Carinfo, List.take_left]
  · simp [create_new_Carinfo]
  · intro h; subst h; rfl
  · intro x hx
    obtain ⟨v, hv, _, hall⟩ := maxById_spec store (by rintro rfl; cases hx)
    have : newCarinfoId store = v.id + 1 := by
      unfold newCarinfoId; rw [hv]
    rw [this]
    exact Nat.lt_succ_of_le (hall x hx)
  · intro h
    obtain ⟨v, hv, hmem, _⟩ := maxById_spec store h
    exact ⟨v, hmem, by unfold newCarinfoId; rw [hv]⟩

/-- Witness for C5 at a concrete non-empty store: the fresh id is 5. -/
theorem claim_C5_create_fresh_id_witness :
    create_new_Carinfo "vw" "golf" "110"
        [⟨4, "a", "b", "c", true⟩, ⟨2, "d", "e", "f", false⟩]
      = [⟨4, "a", "b", "c", true⟩, ⟨2, "d", "e", "f", false⟩,
         ⟨5, "vw", "golf", "110", false⟩]
      ∧ ∃ x ∈ ([⟨4, "a", "b", "c", true⟩, ⟨2, "d", "e", "f", false⟩] : Carinfos),
          newCarinfoId [⟨4, "a", "b", "c", true⟩, ⟨2, "d", "e", "f", false⟩]
            = x.id + 1 :=
  ⟨by decide,
   (claim_C5_create_fresh_id "vw" "golf" "110"
      [⟨4, "a", "b", "c", true⟩, ⟨2, "d", "e", "f", false⟩]).2.2.2.2.2
      (by decide)⟩

/-- C6: `publish r <id>` flips `public` to `true` on the record with the
given id, keeping all its other fields and every other record unchanged;
when no record carries the id the written collection equals the prior
one. -/
theorem claim_C6_publish_frame
    (id : Nat) (store : Carinfos) (i : Nat) (r : Carinfo)
    (hi : store[i]? = some r) :
    (publish_Carinfo id store).length = store.length
      ∧ (publish_Carinfo id store)[i]? =
          some (if r.id = id then { r with public := true } else r)
      ∧ (r.id ≠ id → (publish_Carinfo id store)[i]? = some r)
      ∧ ((∀ x ∈ store, x.id ≠ id) → publish_Carinfo id store = store) := by
  have hmap : (publish_Carinfo id store)[i]? =
      some (if r.id = id then { r with public := true } else r) := by
    unfold publish_Carinfo
    rw [List.getElem?_map, hi]
    rfl
  refine ⟨by simp [publish_Carinfo], hmap, ?_, ?_⟩
  · intro hne
    rw [hmap, if_neg hne]
  · intro hnone
    unfold publish_Carinfo
    calc store.map (fun x => if x.id = id then { x with public := true } else x)
        = store.map (fun x => x) :=
          List.map_congr_left fun x hx => if_neg (hnone x hx)
      _ = store := by simp

/-- Witness for C6 at a concrete store: record 1 becomes public, record 0
stays untouched, and a missing id leaves the store as it was. -/
theorem claim_C6_publish_frame_witness :
    (publish_Carinfo 1 [⟨0, "a", "b", "c", false⟩, ⟨1, "d", "e", "f", false⟩])[0]?
        = some ⟨0, "a", "b", "c", false⟩
      ∧ (publish_Carinfo 1
          [⟨0, "a", "b", "c", false⟩, ⟨1, "d", "e", "f", false⟩])[1]?
          = some ⟨1, "d", "e", "f", true⟩
      ∧ publish_Carinfo 7 [⟨0, "a", "b", "c", false⟩, ⟨1, "d", "e", "f", false⟩]
          = [⟨0, "a", "b", "c", false⟩, ⟨1, "d", "e", "f", false⟩] :=
  ⟨(claim_C6_publish_frame 1 [⟨0, "a", "b", "c", false⟩, ⟨1, "d", "e", "f", false⟩]
      0 ⟨0, "a", "b", "c", false⟩ (by decide)).2.2.1 (by decide),
   by simpa using
     (claim_C6_publish_frame 1 [⟨0, "a", "b", "c", false⟩, ⟨1, "d", "e", "f", false⟩]
        1 ⟨1, "d", "e", "f", false⟩ (by decide)).2.1,
   (claim_C6_publish_frame 7 [⟨0, "a", "b", "c", false⟩, ⟨1, "d", "e", "f", false⟩]
      0 ⟨0, "a", "b", "c", false⟩ (by decide)).2.2.2 (by decide)⟩

/-- C8: the mdns handler adds every discovered peer to the floodsub view
(idempotently under duplicate discovery), and an expiry removes a peer
only when mdns's own book-keeping no longer lists it live — a peer still
known live is never removed. -/
theorem claim_C8_mdns_view
    (view live : Finset String) (peers : List String) (p q : String)
    (hp_live : p ∈ live) (hp_view : p ∈ view) (hq : q ∉ live) :
    (∀ x ∈ peers, x ∈ inject_mdns_discovered view peers)
      ∧ inject_mdns_discovered (inject_mdns_discovered view peers) peers
          = inject_mdns_discovered view peers
      ∧ p ∈ inject_mdns_expired view live peers
      ∧ inject_mdns_expired view live [q] = view.erase q := by
  refine ⟨?_, ?_, ?_, ?_⟩
  · intro x hx
    exact (mem_inject_mdns_discovered view peers x).mpr (Or.inl hx)
  · ext a
    simp only [mem_inject_mdns_discovered]
    tauto
  · exact mem_inject_mdns_expired_of_live view live peers p hp_live hp_view
  · simp [inject_mdns_expired, hq]

/-- Witness for C8 at concrete singleton views. -/
theorem claim_C8_mdns_view_witness :
    "QmA" ∈ inject_mdns_expired {"QmA"} {"QmA"} ["QmA"]
      ∧ inject_mdns_expired {"QmA", "QmB"} ({"QmB"} : Finset String) ["QmA"]
          = ({"QmA", "QmB"} : Finset String).erase "QmA" :=
  ⟨(claim_C8_mdns_view {"QmA"} {"QmA"} ["QmA"] "QmA" "QmB" (by decide) (by decide)
      (by decide)).2.2.1,
   (claim_C8_mdns_view {"QmA", "QmB"} {"QmB"} ["QmB"] "QmB" "QmA" (by decide)
      (by decide) (by decide)).2.2.2⟩

/-- C10: the `ls r` handler classifies its line by
`strip_prefix("ls r ")`: remainder `"all"` broadcasts an `ALL` request;
any other remainder — including the empty one from the line
`"ls r "` — publishes a directed `One(remainder)` request; a line the
prefix strip rejects (such as the exact line `"ls r"`, which the input
dispatch still routes to this handler) falls to the show-local-records
branch. -/
theorem claim_C10_list_command_parsing
    (rest cmd : List Char)
    (hrest : rest ≠ "all".data) (hcmd : stripPrefix "ls r ".data cmd = none) :
    handle_list_Carinfo "ls r all".data = .publishReq ⟨.ALL⟩
      ∧ handle_list_Carinfo ("ls r ".data ++ rest)
          = .publishReq ⟨.One (String.mk rest)⟩
      ∧ handle_list_Carinfo "ls r ".data = .publishReq ⟨.One ""⟩
      ∧ handle_list_Carinfo cmd = .showLocal
      ∧ handle_list_Carinfo "ls r".data = .showLocal
      ∧ dispatchInput "ls r".data = .listCar := by
  refine ⟨by decide, ?_, by decide, ?_, by decide, by decide⟩
  · unfold handle_list_Carinfo
    rw [stripPrefix_append]
    simp [hrest]
  · unfold handle_list_Carinfo
    rw [hcmd]

/-- Witness for C10 at the remainder `"QmB"` and the line `"ls p"`. -/
theorem claim_C10_list_command_parsing_witness :
    handle_list_Carinfo ("ls r ".data ++ "QmB".data)
        = .publishReq ⟨.One "QmB"⟩
      ∧ handle_list_Carinfo "ls p".data = .showLocal :=
  ⟨by simpa using
      (claim_C10_list_command_parsing "QmB".data "ls p".data (by decide)
        (by decide)).2.1,
   (claim_C10_list_command_parsing "QmB".data "ls p".data (by decide)
      (by decide)).2.2.2.1⟩
